import Mathlib

/-!
# Verification of the conso_elec analytics pipeline

A shallow embedding of the import-reconciliation and metrics code of the
`conso_elec` repository (`analytics/calculations.py`, `analytics/metrics.py`,
`dash_app/app.py`, `analytics/weather_to_consumption.py`,
`extraction/weather.py`), together with proofs and refutations of the
specification claims about it.

Modelling conventions:
* timestamps are integers (seconds since an epoch); Python `datetime` values
  form a linear order, which is all the analytics code uses of them;
* `float` consumption values are modelled as exact rationals `ℚ`; every
  comparison the code performs (`<`, `abs`, equality up to `1e-6`) is exact
  on the concrete inputs of interest;
* a pandas `DataFrame` of readings is modelled as the list of its rows;
* SQLAlchemy sessions become explicit store-passing: the store is the list
  of committed-or-pending `ConsumptionRecord` rows, and a query sees rows
  added earlier in the same batch (the session autoflushes before queries).
-/

namespace ConsoElec

/-- A stored consumption reading (`ConsumptionRecord` in `db/database.py`):
`start_time`/`end_time` are timestamps (seconds), `consumption_kwh` the value. -/
structure Reading where
  start_time : Int
  end_time : Int
  consumption_kwh : ℚ
deriving DecidableEq

/-- The conflict dictionary appended by `import_data_with_duplicates_management`
when an existing record has the same key but a different value. -/
structure ImportConflict where
  start_time : Int
  end_time : Int
  existing_value : ℚ
  new_value : ℚ
deriving DecidableEq

/-- The `session.query(ConsumptionRecord).filter(start_time == s, end_time == e)
.one_or_none()` lookup: the first stored record with the given key. -/
def find_existing (store : List Reading) (s e : Int) : Option Reading :=
  store.find? (fun r => decide (r.start_time = s) && decide (r.end_time = e))

/-- One iteration of the row loop of `import_data_with_duplicates_management`
(`analytics/calculations.py`, lines 52-86), acting on the pair
(store, conflicts accumulated so far). -/
def importStep (acc : List Reading × List ImportConflict) (row : Reading) :
    List Reading × List ImportConflict :=
  match find_existing acc.1 row.start_time row.end_time with
  | some existing_record =>
    if |existing_record.consumption_kwh - row.consumption_kwh| < 1e-6 then
      acc
    else
      (acc.1, acc.2 ++ [⟨row.start_time, row.end_time,
                         existing_record.consumption_kwh, row.consumption_kwh⟩])
  | none => (acc.1 ++ [row], acc.2)

/-- `import_data_with_duplicates_management` (`analytics/calculations.py`):
processes a batch of already-parsed rows against the store, returning the
final store and the conflict list. -/
def import_data_with_duplicates_management (store : List Reading)
    (rows : List Reading) : List Reading × List ImportConflict :=
  rows.foldl importStep (store, [])

/-- The store invariant assumed by `one_or_none()`: at most one record per
`(start_time, end_time)` key. -/
def keyUnique (store : List Reading) : Prop :=
  store.Pairwise (fun a b => a.start_time ≠ b.start_time ∨ a.end_time ≠ b.end_time)

instance : DecidablePred keyUnique := fun store =>
  List.instDecidablePairwise store

/-- `calculate_total_consumption` (`analytics/calculations.py`): sum of
`consumption_kwh` over records with `start_time` in the half-open interval
`[start_dt, end_dt)`; the SQL `sum` of an empty selection is `None`, which the
function turns into `0.0`, and the empty list sum below is likewise `0`. -/
def calculate_total_consumption (series : List Reading) (start_dt end_dt : Int) : ℚ :=
  ((series.filter (fun r =>
      decide (start_dt ≤ r.start_time) && decide (r.start_time < end_dt))).map
    (fun r => r.consumption_kwh)).sum

/-- `calculate_base_load` (`analytics/calculations.py`) and the identical
`compute_talon_on_df` (`analytics/metrics.py`): sort the consumption values
ascending and return the one at index `int(n * 0.05)`; `0.0` on empty input.
`int()` truncates, which on the nonnegative `n * 0.05` is the floor. -/
def calculate_base_load (consumptions : List ℚ) : ℚ :=
  if consumptions = [] then 0
  else
    (consumptions.insertionSort (· ≤ ·)).getD
      ⌊(consumptions.length : ℚ) * 0.05⌋₊ 0

/-- `time_of_day`: the `ts.time()` projection of a timestamp, as
seconds-of-day. -/
def time_of_day (ts : Int) : Int := ts % 86400

/-- The HP (peak hours) membership test of `compute_cost_hp_hc`
(`analytics/metrics.py`, lines 14-17). -/
def in_hp (hp_start hp_end t : Int) : Bool :=
  if hp_start < hp_end then
    decide (hp_start ≤ t) && decide (t < hp_end)
  else
    decide (t ≥ hp_start) || decide (t < hp_end)

/-- `compute_cost_hp_hc` (`analytics/metrics.py`): accumulate
`consumption_kwh * (hp_cost if in_hp else hc_cost)` over the rows `(start
timestamp, consumption)`; an empty frame short-circuits to `0.0`. -/
def compute_cost_hp_hc (df : List (Int × ℚ)) (hp_cost hc_cost : ℚ)
    (hp_start hp_end : Int) : ℚ :=
  if df = [] then 0
  else
    df.foldl (fun total_cost row =>
      total_cost + row.2 * (if in_hp hp_start hp_end (time_of_day row.1)
                            then hp_cost else hc_cost)) 0

/-- `compute_auto_consumption_ratio` (`dash_app/app.py`): rows are
`(consumption_kwh, solar_production)` pairs. -/
def compute_auto_consumption_ratio (df : List (ℚ × ℚ)) : ℚ :=
  if df = [] then 0
  else
    let total_pv := (df.map (fun r => r.2)).sum
    if total_pv ≤ 0 then 0
    else
      let used_pv := (df.map (fun r => min r.1 r.2)).sum
      used_pv / total_pv * 100

/-- `compute_solar_coverage_ratio` (`dash_app/app.py`). -/
def compute_solar_coverage_ratio (df : List (ℚ × ℚ)) : ℚ :=
  if df = [] then 0
  else
    let total_conso := (df.map (fun r => r.1)).sum
    if total_conso ≤ 0 then 0
    else
      let used_pv := (df.map (fun r => min r.1 r.2)).sum
      used_pv / total_conso * 100

/-! ## Helper lemmas -/

lemma floor_five_percent (n : ℕ) : ⌊(n : ℚ) * 0.05⌋₊ = n / 20 := by
  have h : (n : ℚ) * 0.05 = (n : ℚ) / ((20 : ℕ) : ℚ) := by
    push_cast
    norm_num
    ring
  rw [h, Nat.floor_div_nat, Nat.floor_natCast]

lemma foldl_add_map {α : Type} (f : α → ℚ) (l : List α) (a : ℚ) :
    l.foldl (fun acc x => acc + f x) a = a + (l.map f).sum := by
  induction l generalizing a with
  | nil => simp
  | cons x xs ih => simp [ih, add_assoc]

lemma in_hp_iff (hp_start hp_end t : Int) :
    in_hp hp_start hp_end t = true ↔
      ((hp_start < hp_end ∧ hp_start ≤ t ∧ t < hp_end) ∨
       (hp_end ≤ hp_start ∧ (t ≥ hp_start ∨ t < hp_end))) := by
  by_cases hc : hp_start < hp_end
  · simp [in_hp, hc]
  · simp [in_hp, hc]
    omega

lemma tc_cons (r : Reading) (s : List Reading) (a b : Int) :
    calculate_total_consumption (r :: s) a b =
      (if a ≤ r.start_time ∧ r.start_time < b then r.consumption_kwh else 0) +
        calculate_total_consumption s a b := by
  by_cases h1 : a ≤ r.start_time <;> by_cases h2 : r.start_time < b <;>
    simp [calculate_total_consumption, List.filter_cons, h1, h2]

/-! ## C5: baseline load is the truncated 5th-percentile order statistic -/

/-- C5: `baseline_load` of `n` consumption values equals the element at index
`floor(0.05 * n)` of the values sorted ascending (truncating index, no
interpolation), and equals `0.0` when the series is empty. The sorted list is
characterised abstractly, as any sorted permutation of the input. -/
theorem calculate_base_load_eq_sorted_index (l sortedL : List ℚ)
    (hperm : sortedL.Perm l) (hsort : sortedL.Sorted (· ≤ ·)) :
    calculate_base_load l =
      if l = [] then 0 else sortedL.getD ⌊0.05 * (l.length : ℚ)⌋₊ 0 := by
  rcases eq_or_ne l [] with rfl | hne
  · simp [calculate_base_load]
  · rw [calculate_base_load, if_neg hne, if_neg hne]
    have hs : sortedL = l.insertionSort (· ≤ ·) :=
      List.eq_of_perm_of_sorted
        (hperm.trans (List.perm_insertionSort (· ≤ ·) l).symm) hsort
        (List.sorted_insertionSort (· ≤ ·) l)
    rw [hs, mul_comm (0.05 : ℚ) (l.length : ℚ)]

/-- Witness for C5 at `l = [2, 1]`, `sortedL = [1, 2]`. -/
theorem calculate_base_load_eq_sorted_index_witness :
    calculate_base_load [2, 1] =
      if ([2, 1] : List ℚ) = [] then 0
      else [1, 2].getD ⌊0.05 * (([2, 1] : List ℚ).length : ℚ)⌋₊ 0 :=
  calculate_base_load_eq_sorted_index [2, 1] [1, 2]
    (List.Perm.swap 2 1 []) (by simp [List.sorted_cons])

/-! ## C10: the baseline index never goes out of bounds -/

/-- C10: for a non-empty series of `n` values the truncated index
`int(n * 0.05)` satisfies `0 <= idx <= n - 1` (the lower bound is inherent to
`ℕ`), so `calculate_base_load` always returns an element of the series. -/
theorem calculate_base_load_index_in_bounds (l : List ℚ) (h : l ≠ []) :
    ⌊(l.length : ℚ) * 0.05⌋₊ ≤ l.length - 1 ∧ calculate_base_load l ∈ l := by
  have hidx : ⌊(l.length : ℚ) * 0.05⌋₊ = l.length / 20 := floor_five_percent _
  have hlen : 0 < l.length := List.length_pos.mpr h
  have hlt : l.length / 20 < l.length := Nat.div_lt_self hlen (by norm_num)
  refine ⟨by omega, ?_⟩
  rw [calculate_base_load, if_neg h]
  have hslen : (l.insertionSort (· ≤ ·)).length = l.length :=
    (List.perm_insertionSort (· ≤ ·) l).length_eq
  have hbound : ⌊(l.length : ℚ) * 0.05⌋₊ < (l.insertionSort (· ≤ ·)).length := by
    rw [hslen]; omega
  rw [List.getD_eq_getElem _ _ hbound]
  exact (List.perm_insertionSort (· ≤ ·) l).subset (List.getElem_mem hbound)

/-- Witness for C10 at `l = [4, 7, 1]`. -/
theorem calculate_base_load_index_in_bounds_witness :
    ⌊(([4, 7, 1] : List ℚ).length : ℚ) * 0.05⌋₊ ≤ ([4, 7, 1] : List ℚ).length - 1 ∧
      calculate_base_load [4, 7, 1] ∈ ([4, 7, 1] : List ℚ) :=
  calculate_base_load_index_in_bounds [4, 7, 1] (by simp)

/-! ## C2: peak/off-peak cost classification -/

/-- C2: the cost classifies each reading by the time-of-day of its
`start_time`: peak iff `hp_start <= t < hp_end` for a same-day window
(`hp_start < hp_end`), peak iff `t >= hp_start` or `t < hp_end` for a
midnight-wrapping window (`hp_start >= hp_end`); the total cost is the sum of
`consumption * selected rate`. The wrap-around scenario (22:00-06:00: 23:00 is
peak, 12:00 is off-peak) and the 06:00-22:00 cost scenario
(`1.0*0.27 + 2.0*0.20 = 0.67`) are included. -/
theorem compute_cost_hp_hc_correct :
    (∀ (df : List (Int × ℚ)) (hp_cost hc_cost : ℚ) (hp_start hp_end : Int),
      compute_cost_hp_hc df hp_cost hc_cost hp_start hp_end =
        (df.map (fun row =>
          row.2 * (if (hp_start < hp_end ∧
                        hp_start ≤ time_of_day row.1 ∧ time_of_day row.1 < hp_end) ∨
                      (hp_end ≤ hp_start ∧
                        (time_of_day row.1 ≥ hp_start ∨ time_of_day row.1 < hp_end))
                   then hp_cost else hc_cost))).sum) ∧
    in_hp (22 * 3600) (6 * 3600) (time_of_day (23 * 3600)) = true ∧
    in_hp (22 * 3600) (6 * 3600) (time_of_day (12 * 3600)) = false ∧
    compute_cost_hp_hc [(6 * 3600, 1), (22 * 3600, 2)] 0.27 0.20
      (6 * 3600) (22 * 3600) = 0.67 := by
  refine ⟨?_, by decide, by decide, ?_⟩
  · intro df hp_cost hc_cost hp_start hp_end
    rcases eq_or_ne df [] with rfl | hne
    · simp [compute_cost_hp_hc]
    · rw [compute_cost_hp_hc, if_neg hne, foldl_add_map, zero_add]
      refine congrArg List.sum (List.map_congr_left fun row _ => ?_)
      congr 1
      exact if_congr (in_hp_iff hp_start hp_end (time_of_day row.1)) rfl rfl
  · rw [compute_cost_hp_hc, if_neg (by simp)]
    simp only [List.foldl, in_hp, time_of_day]
    norm_num

/-! ## C7: self-consumption and coverage ratios stay in [0, 100] -/

/-- C7: on series with nonnegative consumption and solar values, both ratios
equal `100 * sum(min(consumption, solar)) / denominator`, lie in `[0, 100]`,
and are `0` when the respective denominator vanishes or the series is empty. -/
theorem ratios_in_range (df : List (ℚ × ℚ))
    (h : ∀ r ∈ df, 0 ≤ r.1 ∧ 0 ≤ r.2) :
    (0 ≤ compute_auto_consumption_ratio df ∧ compute_auto_consumption_ratio df ≤ 100) ∧
    (0 ≤ compute_solar_coverage_ratio df ∧ compute_solar_coverage_ratio df ≤ 100) ∧
    ((df.map (fun r => r.2)).sum = 0 → compute_auto_consumption_ratio df = 0) ∧
    ((df.map (fun r => r.1)).sum = 0 → compute_solar_coverage_ratio df = 0) ∧
    (df = [] → compute_auto_consumption_ratio df = 0 ∧
               compute_solar_coverage_ratio df = 0) ∧
    ((df.map (fun r => r.2)).sum ≠ 0 →
      compute_auto_consumption_ratio df =
        100 * (df.map (fun r => min r.1 r.2)).sum / (df.map (fun r => r.2)).sum) ∧
    ((df.map (fun r => r.1)).sum ≠ 0 →
      compute_solar_coverage_ratio df =
        100 * (df.map (fun r => min r.1 r.2)).sum / (df.map (fun r => r.1)).sum) := by
  have hmin : 0 ≤ (df.map (fun r => min r.1 r.2)).sum := by
    refine List.sum_nonneg fun x hx => ?_
    obtain ⟨r, hr, rfl⟩ := List.mem_map.mp hx
    exact le_min (h r hr).1 (h r hr).2
  have hfst : 0 ≤ (df.map (fun r => r.1)).sum := by
    refine List.sum_nonneg fun x hx => ?_
    obtain ⟨r, hr, rfl⟩ := List.mem_map.mp hx
    exact (h r hr).1
  have hsnd : 0 ≤ (df.map (fun r => r.2)).sum := by
    refine List.sum_nonneg fun x hx => ?_
    obtain ⟨r, hr, rfl⟩ := List.mem_map.mp hx
    exact (h r hr).2
  have hmin_fst : (df.map (fun r => min r.1 r.2)).sum ≤ (df.map (fun r => r.1)).sum :=
    List.sum_le_sum fun r _ => min_le_left _ _
  have hmin_snd : (df.map (fun r => min r.1 r.2)).sum ≤ (df.map (fun r => r.2)).sum :=
    List.sum_le_sum fun r _ => min_le_right _ _
  have hauto : ∀ hne : (df.map (fun r => r.2)).sum ≠ 0,
      compute_auto_consumption_ratio df =
        (df.map (fun r => min r.1 r.2)).sum / (df.map (fun r => r.2)).sum * 100 := by
    intro hne
    have hdf : df ≠ [] := by rintro rfl; simp at hne
    have hpos : ¬ (df.map (fun r => r.2)).sum ≤ 0 := by
      intro hle
      exact hne (le_antisymm hle hsnd)
    rw [compute_auto_consumption_ratio, if_neg hdf]
    simp only [if_neg hpos]
  have hcov : ∀ hne : (df.map (fun r => r.1)).sum ≠ 0,
      compute_solar_coverage_ratio df =
        (df.map (fun r => min r.1 r.2)).sum / (df.map (fun r => r.1)).sum * 100 := by
    intro hne
    have hdf : df ≠ [] := by rintro rfl; simp at hne
    have hpos : ¬ (df.map (fun r => r.1)).sum ≤ 0 := by
      intro hle
      exact hne (le_antisymm hle hfst)
    rw [compute_solar_coverage_ratio, if_neg hdf]
    simp only [if_neg hpos]
  have hbounds : ∀ used total : ℚ, 0 ≤ used → used ≤ total → total ≠ 0 →
      0 ≤ used / total * 100 ∧ used / total * 100 ≤ 100 := by
    intro used total h0 hle hne
    have htpos : 0 < total := lt_of_le_of_ne (le_trans h0 hle) (Ne.symm hne)
    constructor
    · positivity
    · have h1 : used / total ≤ 1 := (div_le_one htpos).mpr hle
      calc used / total * 100 ≤ 1 * 100 := by nlinarith
      _ = 100 := one_mul 100
  refine ⟨?_, ?_, ?_, ?_, ?_, ?_, ?_⟩
  · rcases eq_or_ne (df.map (fun r => r.2)).sum 0 with hz | hne
    · have : compute_auto_consumption_ratio df = 0 := by
        rw [compute_auto_consumption_ratio]
        rcases eq_or_ne df [] with rfl | hdf
        · simp
        · rw [if_neg hdf]
          simp only [hz, if_pos le_rfl]
      rw [this]
      norm_num
    · rw [hauto hne]
      exact hbounds _ _ hmin hmin_snd hne
  · rcases eq_or_ne (df.map (fun r => r.1)).sum 0 with hz | hne
    · have : compute_solar_coverage_ratio df = 0 := by
        rw [compute_solar_coverage_ratio]
        rcases eq_or_ne df [] with rfl | hdf
        · simp
        · rw [if_neg hdf]
          simp only [hz, if_pos le_rfl]
      rw [this]
      norm_num
    · rw [hcov hne]
      exact hbounds _ _ hmin hmin_fst hne
  · intro hz
    rw [compute_auto_consumption_ratio]
    rcases eq_or_ne df [] with rfl | hdf
    · simp
    · rw [if_neg hdf]
      simp only [hz, if_pos le_rfl]
  · intro hz
    rw [compute_solar_coverage_ratio]
    rcases eq_or_ne df [] with rfl | hdf
    · simp
    · rw [if_neg hdf]
      simp only [hz, if_pos le_rfl]
  · rintro rfl
    constructor
    · simp [compute_auto_consumption_ratio]
    · simp [compute_solar_coverage_ratio]
  · intro hne
    rw [hauto hne]
    ring
  · intro hne
    rw [hcov hne]
    ring

/-- Witness for C7 at `df = [(3, 1), (1, 2)]`: used PV is `min 3 1 + min 1 2 = 2`,
total PV `3`, total consumption `4`. -/
theorem ratios_in_range_witness :
    (0 ≤ compute_auto_consumption_ratio [(3, 1), (1, 2)] ∧
      compute_auto_consumption_ratio [(3, 1), (1, 2)] ≤ 100) ∧
    (0 ≤ compute_solar_coverage_ratio [(3, 1), (1, 2)] ∧
      compute_solar_coverage_ratio [(3, 1), (1, 2)] ≤ 100) :=
  ⟨(ratios_in_range [(3, 1), (1, 2)] (by norm_num)).1,
   (ratios_in_range [(3, 1), (1, 2)] (by norm_num)).2.1⟩

/-! ## C8: total consumption over half-open intervals is additive -/

/-- C8: for `a <= m <= b`, the consumption total over `[a, b)` splits as the
total over `[a, m)` plus the total over `[m, b)`, each reading being counted
by whether its `start_time` lies in the half-open interval; an interval
matching no reading contributes `0.0`. -/
theorem total_consumption_additive (series : List Reading) (a m b : Int)
    (h1 : a ≤ m) (h2 : m ≤ b) :
    calculate_total_consumption series a b =
      calculate_total_consumption series a m + calculate_total_consumption series m b ∧
    (series.filter (fun r =>
        decide (a ≤ r.start_time) && decide (r.start_time < b)) = [] →
      calculate_total_consumption series a b = 0) := by
  constructor
  · induction series with
    | nil => simp [calculate_total_consumption]
    | cons r s ih =>
      rw [tc_cons, tc_cons, tc_cons, ih]
      have hsplit : (if a ≤ r.start_time ∧ r.start_time < b then r.consumption_kwh else 0) =
          (if a ≤ r.start_time ∧ r.start_time < m then r.consumption_kwh else 0) +
          (if m ≤ r.start_time ∧ r.start_time < b then r.consumption_kwh else 0) := by
        split_ifs <;> first
          | (exfalso; omega)
          | ring
      rw [hsplit]
      ring
  · intro hfilter
    rw [calculate_total_consumption, hfilter]
    simp

/-- Witness for C8 at `series = [(0,1800,2), (5400,7200,3)]`, `a = 0`,
`m = 3600`, `b = 10800`. -/
theorem total_consumption_additive_witness :
    (calculate_total_consumption [⟨0, 1800, 2⟩, ⟨5400, 7200, 3⟩] 0 10800 =
      calculate_total_consumption [⟨0, 1800, 2⟩, ⟨5400, 7200, 3⟩] 0 3600 +
        calculate_total_consumption [⟨0, 1800, 2⟩, ⟨5400, 7200, 3⟩] 3600 10800) ∧
    (([⟨0, 1800, 2⟩, ⟨5400, 7200, 3⟩] : List Reading).filter (fun r =>
        decide ((0 : Int) ≤ r.start_time) && decide (r.start_time < 10800)) = [] →
      calculate_total_consumption [⟨0, 1800, 2⟩, ⟨5400, 7200, 3⟩] 0 10800 = 0) :=
  total_consumption_additive [⟨0, 1800, 2⟩, ⟨5400, 7200, 3⟩] 0 3600 10800
    (by norm_num) (by norm_num)

/-! ## Reconciler lemmas -/

lemma find_existing_eq_none {store : List Reading} {s e : Int}
    (h : ∀ r ∈ store, ¬(r.start_time = s ∧ r.end_time = e)) :
    find_existing store s e = none := by
  rw [find_existing, List.find?_eq_none]
  intro r hr
  simp only [Bool.and_eq_true, decide_eq_true_eq]
  exact h r hr

lemma find_existing_eq_some {store : List Reading} {ex : Reading} {s e : Int}
    (hmem : ex ∈ store) (hs : ex.start_time = s) (he : ex.end_time = e)
    (hu : keyUnique store) : find_existing store s e = some ex := by
  induction store with
  | nil => simp at hmem
  | cons r rest ih =>
    rcases List.mem_cons.mp hmem with rfl | hmem'
    · rw [find_existing, List.find?_cons_of_pos]
      simp [hs, he]
    · have hkey : r.start_time ≠ ex.start_time ∨ r.end_time ≠ ex.end_time :=
        (List.pairwise_cons.mp hu).1 ex hmem'
      rw [find_existing, List.find?_cons_of_neg, ← find_existing]
      · exact ih hmem' (List.pairwise_cons.mp hu).2
      · simp only [Bool.and_eq_true, decide_eq_true_eq, not_and]
        intro h1 h2
        rw [← hs, ← he] at *
        tauto

lemma find_existing_mem {store : List Reading} {ex : Reading} {s e : Int}
    (h : find_existing store s e = some ex) :
    ex ∈ store ∧ ex.start_time = s ∧ ex.end_time = e := by
  refine ⟨List.mem_of_find?_eq_some h, ?_⟩
  have := List.find?_some h
  simpa using this

lemma keyUnique_append_single {store : List Reading} {row : Reading}
    (hu : keyUnique store)
    (hf : find_existing store row.start_time row.end_time = none) :
    keyUnique (store ++ [row]) := by
  rw [keyUnique, List.pairwise_append]
  refine ⟨hu, List.pairwise_singleton _ _, ?_⟩
  intro a ha b hb
  rw [List.mem_singleton] at hb
  subst hb
  have := List.find?_eq_none.mp hf a ha
  simp only [Bool.and_eq_true, decide_eq_true_eq, not_and] at this
  tauto

lemma importStep_acc (store : List Reading) (cs : List ImportConflict) (row : Reading) :
    importStep (store, cs) row =
      ((importStep (store, []) row).1, cs ++ (importStep (store, []) row).2) := by
  rw [importStep, importStep]
  cases hf : find_existing store row.start_time row.end_time with
  | none => simp
  | some ex =>
    by_cases hc : |ex.consumption_kwh - row.consumption_kwh| < 1e-6
    · simp [hc]
    · simp [hc]

lemma run_acc : ∀ (rows : List Reading) (store : List Reading)
    (cs : List ImportConflict),
    rows.foldl importStep (store, cs) =
      ((rows.foldl importStep (store, [])).1,
        cs ++ (rows.foldl importStep (store, [])).2)
  | [], store, cs => by simp
  | r :: rest, store, cs => by
    simp only [List.foldl_cons]
    rcases hp : importStep (store, []) r with ⟨s1, d⟩
    rw [importStep_acc store cs r, hp]
    rw [run_acc rest s1 (cs ++ d), run_acc rest s1 d]
    simp

lemma importStep_store_cases (store : List Reading) (cs : List ImportConflict)
    (row : Reading) :
    (importStep (store, cs) row).1 = store ∨
      ((importStep (store, cs) row).1 = store ++ [row] ∧
        find_existing store row.start_time row.end_time = none) := by
  rw [importStep]
  cases hf : find_existing store row.start_time row.end_time with
  | none => exact Or.inr ⟨rfl, rfl⟩
  | some ex =>
    by_cases hc : |ex.consumption_kwh - row.consumption_kwh| < 1e-6
    · simp [hc]
    · simp [hc]

lemma keyUnique_importStep {store : List Reading} (cs : List ImportConflict)
    (row : Reading) (hu : keyUnique store) :
    keyUnique (importStep (store, cs) row).1 := by
  rcases importStep_store_cases store cs row with h | ⟨h, hf⟩
  · rw [h]; exact hu
  · rw [h]; exact keyUnique_append_single hu hf

lemma find_existing_importStep {store : List Reading} {ex : Reading} {s e : Int}
    (cs : List ImportConflict) (row : Reading) (hu : keyUnique store)
    (h : find_existing store s e = some ex) :
    find_existing (importStep (store, cs) row).1 s e = some ex := by
  rcases importStep_store_cases store cs row with hcase | ⟨hcase, hf⟩
  · rw [hcase]; exact h
  · rw [hcase]
    obtain ⟨hmem, hs, he⟩ := find_existing_mem h
    exact find_existing_eq_some (List.mem_append_left _ hmem) hs he
      (keyUnique_append_single hu hf)

lemma keyUnique_run : ∀ (rows : List Reading) (store : List Reading)
    (cs : List ImportConflict), keyUnique store →
    keyUnique (rows.foldl importStep (store, cs)).1
  | [], _, _, hu => hu
  | r :: rest, store, cs, hu => by
    simp only [List.foldl_cons]
    rcases hp : importStep (store, cs) r with ⟨s1, d⟩
    have h1 : keyUnique s1 := by
      have := keyUnique_importStep cs r hu
      rwa [hp] at this
    exact keyUnique_run rest s1 d h1

lemma find_existing_run : ∀ (rows : List Reading) (store : List Reading)
    (cs : List ImportConflict) (s e : Int) (ex : Reading), keyUnique store →
    find_existing store s e = some ex →
    find_existing (rows.foldl importStep (store, cs)).1 s e = some ex
  | [], _, _, _, _, _, _, h => h
  | r :: rest, store, cs, s, e, ex, hu, h => by
    simp only [List.foldl_cons]
    rcases hp : importStep (store, cs) r with ⟨s1, d⟩
    have h1 : keyUnique s1 := by
      have := keyUnique_importStep cs r hu
      rwa [hp] at this
    have h2 : find_existing s1 s e = some ex := by
      have := find_existing_importStep cs r hu h
      rwa [hp] at this
    exact find_existing_run rest s1 d s e ex h1 h2

lemma abs_self_lt_tol (c : ℚ) : |c - c| < 1e-6 := by
  rw [sub_self, abs_zero]
  norm_num

/-! ## C1: per-row classification of the reconciler -/

/-- C1: each import row is classified against the store by its
`(start_time, end_time)` key: persist when the key is absent, no-op when the
key exists with a consumption difference strictly below `1e-6`, and otherwise
no write plus an appended conflict record. The two spec scenarios
(existing value `5.0` against incoming `5.0000001` and `5.5`) are included. -/
theorem import_row_classification :
    (∀ (store : List Reading) (conflicts : List ImportConflict) (row : Reading),
      ((∀ r ∈ store, ¬(r.start_time = row.start_time ∧ r.end_time = row.end_time)) →
        importStep (store, conflicts) row = (store ++ [row], conflicts)) ∧
      (∀ ex ∈ store, ex.start_time = row.start_time → ex.end_time = row.end_time →
        keyUnique store →
        (|ex.consumption_kwh - row.consumption_kwh| < 1e-6 →
          importStep (store, conflicts) row = (store, conflicts)) ∧
        (¬ |ex.consumption_kwh - row.consumption_kwh| < 1e-6 →
          importStep (store, conflicts) row =
            (store, conflicts ++ [⟨row.start_time, row.end_time,
              ex.consumption_kwh, row.consumption_kwh⟩])))) ∧
    import_data_with_duplicates_management [⟨0, 1800, 5⟩] [⟨0, 1800, 5.0000001⟩] =
      ([⟨0, 1800, 5⟩], []) ∧
    import_data_with_duplicates_management [⟨0, 1800, 5⟩] [⟨0, 1800, 5.5⟩] =
      ([⟨0, 1800, 5⟩], [⟨0, 1800, 5, 5.5⟩]) := by
  refine ⟨?_, ?_, ?_⟩
  · intro store conflicts row
    constructor
    · intro hnone
      simp [importStep, find_existing_eq_none hnone]
    · intro ex hmem hs he hu
      have hfind := find_existing_eq_some hmem hs he hu
      constructor
      · intro hclose
        simp [importStep, hfind, hclose]
      · intro hfar
        simp [importStep, hfind, hfar]
  · have h : |(5 : ℚ) - 5.0000001| < 1e-6 := by rw [abs_lt]; norm_num
    simp [import_data_with_duplicates_management, importStep, find_existing, h]
  · have h : ¬ (|(5 : ℚ) - 5.5| < 1e-6) := by rw [abs_lt]; norm_num
    simp [import_data_with_duplicates_management, importStep, find_existing, h]

/-- Witness for C1: the classification branch hypotheses discharged on the
empty store. -/
theorem import_row_classification_witness :
    importStep (([] : List Reading), ([] : List ImportConflict)) ⟨0, 1800, 5⟩ =
      ([⟨0, 1800, 5⟩], []) :=
  (import_row_classification.1 [] [] ⟨0, 1800, 5⟩).1 (by simp)

/-! ## C6: re-importing a batch -/

lemma run_twice : ∀ (rows : List Reading) (store : List Reading), keyUnique store →
    rows.foldl importStep ((rows.foldl importStep (store, [])).1, []) =
      rows.foldl importStep (store, [])
  | [], _, _ => by simp
  | r :: rest, store, hu => by
    simp only [List.foldl_cons]
    cases hf : find_existing store r.start_time r.end_time with
    | none =>
      have hstep : importStep (store, []) r = (store ++ [r], []) := by
        simp [importStep, hf]
      rw [hstep]
      have hu' : keyUnique (store ++ [r]) := keyUnique_append_single hu hf
      have hfind0 : find_existing (store ++ [r]) r.start_time r.end_time = some r :=
        find_existing_eq_some (List.mem_append_right _ (List.mem_singleton_self r))
          rfl rfl hu'
      have hfindS : find_existing
          (rest.foldl importStep (store ++ [r], [])).1 r.start_time r.end_time = some r :=
        find_existing_run rest (store ++ [r]) [] r.start_time r.end_time r hu' hfind0
      have hstep2 : importStep ((rest.foldl importStep (store ++ [r], [])).1, []) r =
          ((rest.foldl importStep (store ++ [r], [])).1, []) := by
        simp only [importStep, hfindS]
        rw [if_pos (abs_self_lt_tol r.consumption_kwh)]
      rw [hstep2]
      exact run_twice rest (store ++ [r]) hu'
    | some ex =>
      by_cases hc : |ex.consumption_kwh - r.consumption_kwh| < 1e-6
      · have hstep : importStep (store, []) r = (store, []) := by
          simp [importStep, hf, hc]
        rw [hstep]
        have hfindS : find_existing
            (rest.foldl importStep (store, [])).1 r.start_time r.end_time = some ex :=
          find_existing_run rest store [] r.start_time r.end_time ex hu hf
        have hstep2 : importStep ((rest.foldl importStep (store, [])).1, []) r =
            ((rest.foldl importStep (store, [])).1, []) := by
          simp [importStep, hfindS, hc]
        rw [hstep2]
        exact run_twice rest store hu
      · have hstep : importStep (store, []) r =
            (store, [⟨r.start_time, r.end_time, ex.consumption_kwh, r.consumption_kwh⟩]) := by
          simp [importStep, hf, hc]
        rw [hstep]
        rw [run_acc rest store
          [⟨r.start_time, r.end_time, ex.consumption_kwh, r.consumption_kwh⟩]]
        have hfindS : find_existing
            (rest.foldl importStep (store, [])).1 r.start_time r.end_time = some ex :=
          find_existing_run rest store [] r.start_time r.end_time ex hu hf
        have hstep2 : importStep ((rest.foldl importStep (store, [])).1, []) r =
            ((rest.foldl importStep (store, [])).1,
              [⟨r.start_time, r.end_time, ex.consumption_kwh, r.consumption_kwh⟩]) := by
          simp [importStep, hfindS, hc]
        rw [hstep2]
        rw [run_acc rest ((rest.foldl importStep (store, [])).1)
          [⟨r.start_time, r.end_time, ex.consumption_kwh, r.consumption_kwh⟩]]
        rw [run_twice rest store hu]

/-- C6 counterexample: from the empty store, the batch
`[(0,1800,1.0), (0,1800,2.0)]` persists the first row and reports one
conflict on the first pass; the second pass, against the store left by the
first, reports the same conflict again, so its conflict list is *not* empty
(the claim would require `[]`). -/
theorem import_second_pass_conflicts_nonempty :
    (import_data_with_duplicates_management
      (import_data_with_duplicates_management [] [⟨0, 1800, 1⟩, ⟨0, 1800, 2⟩]).1
      [⟨0, 1800, 1⟩, ⟨0, 1800, 2⟩]).2 = [⟨0, 1800, 1, 2⟩] ∧
    (import_data_with_duplicates_management
      (import_data_with_duplicates_management [] [⟨0, 1800, 1⟩, ⟨0, 1800, 2⟩]).1
      [⟨0, 1800, 1⟩, ⟨0, 1800, 2⟩]).2 ≠ [] := by
  have h0 : (0 : ℚ) < 1e-6 := by norm_num
  have h1 : |(1 : ℚ) - 1| < 1e-6 := abs_self_lt_tol 1
  have h2 : ¬ (|(1 : ℚ) - 2| < 1e-6) := by rw [abs_lt]; norm_num
  constructor
  · simp [import_data_with_duplicates_management, importStep, find_existing, h0, h1, h2]
  · simp [import_data_with_duplicates_management, importStep, find_existing, h0, h1, h2]

/-- C6 (amended): re-importing the same batch against the store left by the
first import persists zero new rows (the store is unchanged) and returns the
same conflict list as the first pass — in particular an empty one exactly
when the first pass was conflict-free. The store must respect the
`(start_time, end_time)` uniqueness that `one_or_none()` assumes. -/
theorem import_idempotent (store rows : List Reading) (hu : keyUnique store) :
    import_data_with_duplicates_management
        (import_data_with_duplicates_management store rows).1 rows =
      ((import_data_with_duplicates_management store rows).1,
        (import_data_with_duplicates_management store rows).2) :=
  (run_twice rows store hu).trans (Prod.mk.eta).symm

/-- Witness for C6 at the empty store and a two-row batch containing an
internal duplicate. -/
theorem import_idempotent_witness :
    import_data_with_duplicates_management
        (import_data_with_duplicates_management [] [⟨0, 1800, 1⟩, ⟨0, 1800, 2⟩]).1
        [⟨0, 1800, 1⟩, ⟨0, 1800, 2⟩] =
      ((import_data_with_duplicates_management [] [⟨0, 1800, 1⟩, ⟨0, 1800, 2⟩]).1,
        (import_data_with_duplicates_management [] [⟨0, 1800, 1⟩, ⟨0, 1800, 2⟩]).2) :=
  import_idempotent [] [⟨0, 1800, 1⟩, ⟨0, 1800, 2⟩] List.Pairwise.nil

/-! ## C3: weather gap filler

`fetch_weather_data` (`extraction/weather.py`) catches provider exceptions
and returns `pd.DataFrame()` — the empty frame, which has *no columns*.
`resample_weather_data` raises `ValueError` when the `time` column is absent.
`integrate_weather_with_consumption` (`analytics/weather_to_consumption.py`)
calls fetch → resample → save per missing day with no exception handling, so
a raised `ValueError` propagates and aborts the loop. -/

/-- A weather dataframe: its rows `(time, value)` plus whether it carries a
`time` column. The provider-failure branch of `fetch_weather_data` returns
`pd.DataFrame()`, which has no columns. -/
structure WeatherDF where
  has_time_col : Bool
  rows : List (Int × ℚ)
deriving DecidableEq

/-- The empty dataframe `pd.DataFrame()` produced by the `except` branch of
`fetch_weather_data`. -/
def emptyDF : WeatherDF := ⟨false, []⟩

/-- The hourly-to-30-minute linear resampling of `resample_weather_data`:
pandas `resample("30min").interpolate("linear")` on hourly rows keeps each
hourly sample and inserts the midpoint between consecutive ones. -/
def resample30 : List (Int × ℚ) → List (Int × ℚ)
  | [] => []
  | [x] => [x]
  | x :: y :: rest => x :: (x.1 + 1800, (x.2 + y.2) / 2) :: resample30 (y :: rest)

/-- `resample_weather_data` (`extraction/weather.py`): raises `ValueError`
when the dataframe has no `time` column, otherwise resamples to 30 minutes. -/
def resample_weather_data (df : WeatherDF) : Except String (List (Int × ℚ)) :=
  if df.has_time_col = false then
    Except.error ("ValueError: la colonne time est requise dans le DataFrame")
  else
    Except.ok (resample30 df.rows)

/-- `save_weather_data_to_db` (`extraction/weather.py`): bulk-insert of the
resampled rows into the weather store. -/
def save_weather_data_to_db (store rows : List (Int × ℚ)) : List (Int × ℚ) :=
  store ++ rows

/-- `integrate_weather_with_consumption` (`analytics/weather_to_consumption.py`):
for each missing day, fetch (modelled by the provider function `fetch`),
resample and save; no exception is caught, so a raised error aborts the
remaining days. -/
def integrate_weather_with_consumption (fetch : Int → WeatherDF)
    (store : List (Int × ℚ)) (days : List Int) :
    Except String (List (Int × ℚ)) :=
  days.foldlM (fun st day => do
    let weather_resampled ← resample_weather_data (fetch day)
    pure (save_weather_data_to_db st weather_resampled)) store

/-- A provider that errors on day `0` (so `fetch_weather_data` returns the
empty dataframe) and succeeds with one hourly row on every other day. -/
def failingOnDayZero : Int → WeatherDF :=
  fun day => if day = 0 then emptyDF else ⟨true, [(day * 86400, 1)]⟩

/-- C3 (behaviour of the code at the failing input): with missing days
`[0, 1]` and a provider that fails for day `0`, the gap filler does *not*
skip day `0` — `resample_weather_data` raises `ValueError` on the empty
dataframe and the whole run aborts, so day `1` is never fetched, resampled
or persisted; processing the same days without the failing one succeeds.
This contradicts the claim, which requires the failure to degrade to a
logged skip with subsequent days still processed. -/
theorem integrate_weather_aborts_on_provider_failure :
    integrate_weather_with_consumption failingOnDayZero [] [0, 1] =
      Except.error ("ValueError: la colonne time est requise dans le DataFrame") ∧
    integrate_weather_with_consumption failingOnDayZero [] [1] =
      Except.ok [(86400, 1)] := by
  constructor
  · rfl
  · rfl

/-! ## Record parsing (C4, C9)

One import row of `import_data_with_duplicates_management`: the raw strings
of the `Début`, `Fin` and `Valeur (en kW)` columns. Parsing models
`datetime.strptime(s, "%d/%m/%Y %H:%M:%S")` on its canonical (fixed-width)
inputs and `float(s.replace(',', '.'))` on unsigned decimal literals. -/

structure RawRow where
  debut : String
  fin : String
  valeur : String
deriving DecidableEq

/-- A parsed wall-clock timestamp (the fields `strptime` extracts). -/
structure DateTime where
  year : ℕ
  month : ℕ
  day : ℕ
  hour : ℕ
  minute : ℕ
  second : ℕ
deriving DecidableEq

/-- The per-row failures of the parser: `ValueError` from `float(...)` or
from `datetime.strptime(...)`. -/
inductive ParseError where
  | badValue : String → ParseError
  | badTimestamp : String → ParseError
deriving DecidableEq

/-- A fully parsed import row. -/
structure ParsedReading where
  start_time : DateTime
  end_time : DateTime
  consumption_kwh : ℚ
deriving DecidableEq

def isLeapYear (y : ℕ) : Bool :=
  (decide (y % 4 = 0) && decide (y % 100 ≠ 0)) || decide (y % 400 = 0)

def daysInMonth (y m : ℕ) : ℕ :=
  if m = 2 then (if isLeapYear y then 29 else 28)
  else if m = 4 ∨ m = 6 ∨ m = 9 ∨ m = 11 then 30
  else 31

/-- The range checks `strptime` plus the `datetime` constructor perform. -/
def validDateTime (t : DateTime) : Bool :=
  decide (1 ≤ t.year) && decide (t.year ≤ 9999) &&
  decide (1 ≤ t.month) && decide (t.month ≤ 12) &&
  decide (1 ≤ t.day) && decide (t.day ≤ daysInMonth t.year t.month) &&
  decide (t.hour ≤ 23) && decide (t.minute ≤ 59) && decide (t.second ≤ 59)

/-- Decimal value of a big-endian digit-character list. -/
def digitsToNat (cs : List Char) : ℕ :=
  cs.foldl (fun acc c => acc * 10 + (c.toNat - 48)) 0

/-- `datetime.strptime(s, "%d/%m/%Y %H:%M:%S")` on fixed-width inputs:
exactly `dd/mm/YYYY HH:MM:SS`, all fields digits, ranges validated. -/
def parseTimestamp (s : String) : Option DateTime :=
  match s.toList with
  | [d1, d2, c1, m1, m2, c2, y1, y2, y3, y4, c3, h1, h2, c4, n1, n2, c5, p1, p2] =>
    if c1 = '/' ∧ c2 = '/' ∧ c3 = ' ' ∧ c4 = ':' ∧ c5 = ':' ∧
        [d1, d2, m1, m2, y1, y2, y3, y4, h1, h2, n1, n2, p1, p2].all Char.isDigit then
      if validDateTime ⟨digitsToNat [y1, y2, y3, y4], digitsToNat [m1, m2],
          digitsToNat [d1, d2], digitsToNat [h1, h2], digitsToNat [n1, n2],
          digitsToNat [p1, p2]⟩ then
        some ⟨digitsToNat [y1, y2, y3, y4], digitsToNat [m1, m2],
          digitsToNat [d1, d2], digitsToNat [h1, h2], digitsToNat [n1, n2],
          digitsToNat [p1, p2]⟩
      else none
    else none
  | _ => none

/-- `float(s)` on unsigned decimal literals: integer digits, an optional
point followed by fraction digits, at least one digit overall. -/
def parseDecimal (cs : List Char) : Option ℚ :=
  let ip := cs.takeWhile Char.isDigit
  let rest := cs.dropWhile Char.isDigit
  match rest with
  | [] => if ip.isEmpty then none else some ((digitsToNat ip : ℚ))
  | c :: fp =>
    if c = '.' ∧ fp.all Char.isDigit ∧ (ip ≠ [] ∨ fp ≠ []) then
      some ((digitsToNat ip : ℚ) + (digitsToNat fp : ℚ) / 10 ^ fp.length)
    else none

/-- `float(str(value).replace(',', '.'))` of the import loop. -/
def parseValue (s : String) : Option ℚ :=
  parseDecimal (s.toList.map (fun c => if c = ',' then '.' else c))

/-- The parsing prefix of one iteration of the import loop
(`analytics/calculations.py`, lines 53-59): the value conversion runs first,
then the two `strptime` calls, each raising on failure. -/
def parseRow (row : RawRow) : Except ParseError ParsedReading :=
  match parseValue row.valeur with
  | none => Except.error (ParseError.badValue row.valeur)
  | some v =>
    match parseTimestamp row.debut with
    | none => Except.error (ParseError.badTimestamp row.debut)
    | some st =>
      match parseTimestamp row.fin with
      | none => Except.error (ParseError.badTimestamp row.fin)
      | some en => Except.ok ⟨st, en, v⟩

/-- Order-preserving injection of wall-clock timestamps into the integer
timeline used by the store. -/
def DateTime.encode (t : DateTime) : Int :=
  ((((t.year * 12 + t.month) * 32 + t.day) * 24 + t.hour) * 60 + t.minute) * 60
    + t.second

def toRecord (p : ParsedReading) : Reading :=
  ⟨p.start_time.encode, p.end_time.encode, p.consumption_kwh⟩

/-- `import_data_with_duplicates_management` on raw rows: each iteration
parses, then reconciles; an uncaught parse exception aborts the whole batch
before the final `commit`, so an error outcome persists nothing. -/
def import_raw (store : List Reading) (rows : List RawRow) :
    Except ParseError (List Reading × List ImportConflict) :=
  rows.foldlM (fun acc row => do
    let p ← parseRow row
    pure (importStep acc (toRecord p))) (store, [])

/-! ## C4: a malformed row and the rest of the batch -/

lemma import_raw_loop_aborts :
    ∀ (rows : List RawRow) (acc : List Reading × List ImportConflict),
    (∃ r ∈ rows, ∃ e, parseRow r = Except.error e) →
    ∃ e, rows.foldlM (fun acc row => do
      let p ← parseRow row
      pure (importStep acc (toRecord p))) acc = Except.error e
  | [], _, h => by
    obtain ⟨r, hr, _⟩ := h
    simp at hr
  | x :: rest, acc, h => by
    cases hp : parseRow x with
    | error e =>
      exact ⟨e, by rw [List.foldlM_cons, hp]; rfl⟩
    | ok p =>
      obtain ⟨r, hr, e, he⟩ := h
      rcases List.mem_cons.mp hr with rfl | hr'
      · rw [hp] at he
        exact absurd he (by simp)
      · obtain ⟨e2, he2⟩ :=
          import_raw_loop_aborts rest (importStep acc (toRecord p)) ⟨r, hr', e, he⟩
        refine ⟨e2, ?_⟩
        rw [List.foldlM_cons, hp]
        exact he2

/-- C4 (amended): parse failures are *not* row-isolated — a row whose
timestamp or value does not parse raises an exception that aborts the whole
import: the function returns the error, no later row is processed and no row
is persisted (the final commit is never reached). -/
theorem import_raw_aborts_on_bad_row (store : List Reading) (rows : List RawRow)
    (h : ∃ r ∈ rows, ∃ e, parseRow r = Except.error e) :
    ∃ e, import_raw store rows = Except.error e :=
  import_raw_loop_aborts rows (store, []) h

/-- Witness for C4 (amended): a one-row batch whose value is not numeric. -/
theorem import_raw_aborts_on_bad_row_witness :
    ∃ e, import_raw []
      [⟨"01/01/2024 00:00:00", "01/01/2024 00:30:00", "abc"⟩] = Except.error e :=
  import_raw_aborts_on_bad_row []
    [⟨"01/01/2024 00:00:00", "01/01/2024 00:30:00", "abc"⟩]
    ⟨⟨"01/01/2024 00:00:00", "01/01/2024 00:30:00", "abc"⟩, by simp,
      ParseError.badValue "abc", by rfl⟩

/-- C4 counterexample: the batch `[bad, good]` (bad value `"abc"`, then a
well-formed row) errors out as a whole — the claim would require the good
row to still be processed — while the same good row imports fine on its own. -/
theorem import_raw_not_row_isolated :
    import_raw [] [⟨"01/01/2024 00:00:00", "01/01/2024 00:30:00", "abc"⟩,
                   ⟨"01/01/2024 01:00:00", "01/01/2024 01:30:00", "5,5"⟩] =
      Except.error (ParseError.badValue "abc") ∧
    import_raw [] [⟨"01/01/2024 01:00:00", "01/01/2024 01:30:00", "5,5"⟩] =
      Except.ok ([toRecord ⟨⟨2024, 1, 1, 1, 0, 0⟩, ⟨2024, 1, 1, 1, 30, 0⟩,
        11 / 2⟩], []) := by
  constructor
  · rfl
  · simp +decide [import_raw, parseRow, parseValue, parseDecimal, parseTimestamp,
      digitsToNat, validDateTime, daysInMonth, isLeapYear, importStep,
      find_existing, toRecord, DateTime.encode]
    norm_num

/-! ## C9: the canonical formatter

The repository has no serialiser back to row strings; §8 of the spec
postulates a "canonical formatter" using "the same format strings" as the
parser, so the formatter below is modelled from the spec: timestamps are
rendered through `%d/%m/%Y %H:%M:%S` with zero padding, and the value with
the decimal comma and the minimal number of fraction digits (at least one),
matching what `str()` prints for the floats arising here. -/

/-- Big-endian decimal digit characters of `n` (empty for `0`). -/
def natDigitsChars (n : ℕ) : List Char :=
  (Nat.digits 10 n).reverse.map Nat.digitChar

/-- Modelled from the spec: decimal rendering of a natural number. -/
def renderNat (n : ℕ) : List Char :=
  if n = 0 then ['0'] else natDigitsChars n

/-- Modelled from the spec: decimal rendering zero-padded to width `w`. -/
def renderNatPad (w n : ℕ) : List Char :=
  List.replicate (w - (natDigitsChars n).length) '0' ++ natDigitsChars n

/-- Modelled from the spec: the number of fraction digits the canonical
formatter prints — the least `k` with `q.den ∣ 10 ^ k`, searched over
`0..q.den`. -/
def fracDigitsCount (q : ℚ) : ℕ :=
  ((List.range (q.den + 1)).find? (fun k => decide (10 ^ k % q.den = 0))).getD 0

/-- Modelled from the spec: canonical rendering of a consumption value with
the decimal comma. -/
def renderValue (q : ℚ) : String :=
  String.mk (renderNat (q.num.toNat * (10 ^ max (fracDigitsCount q) 1 / q.den)
      / 10 ^ max (fracDigitsCount q) 1) ++
    ',' :: renderNatPad (max (fracDigitsCount q) 1)
      (q.num.toNat * (10 ^ max (fracDigitsCount q) 1 / q.den)
        % 10 ^ max (fracDigitsCount q) 1))

/-- Modelled from the spec: `strftime("%d/%m/%Y %H:%M:%S")`. -/
def formatTimestamp (t : DateTime) : String :=
  String.mk (renderNatPad 2 t.day ++ '/' :: (renderNatPad 2 t.month ++ '/' ::
    (renderNatPad 4 t.year ++ ' ' :: (renderNatPad 2 t.hour ++ ':' ::
      (renderNatPad 2 t.minute ++ ':' :: renderNatPad 2 t.second)))))

/-- Modelled from the spec: format a parsed reading back into a raw row. -/
def formatReading (p : ParsedReading) : RawRow :=
  ⟨formatTimestamp p.start_time, formatTimestamp p.end_time,
    renderValue p.consumption_kwh⟩

/-! ### Digit lemmas -/

lemma toList_mk (cs : List Char) : (String.mk cs).toList = cs := rfl

lemma digitChar_isDigit {d : ℕ} (h : d < 10) :
    (Nat.digitChar d).isDigit = true := by
  interval_cases d <;> decide

lemma digitChar_toNat_sub {d : ℕ} (h : d < 10) :
    (Nat.digitChar d).toNat - 48 = d := by
  interval_cases d <;> decide

lemma digitsToNat_concat (xs : List Char) (c : Char) :
    digitsToNat (xs ++ [c]) = 10 * digitsToNat xs + (c.toNat - 48) := by
  rw [digitsToNat, digitsToNat, List.foldl_append]
  simp [List.foldl]
  ring

lemma digitsToNat_zero_cons (cs : List Char) :
    digitsToNat ('0' :: cs) = digitsToNat cs := rfl

lemma digitsToNat_replicate_zero (k : ℕ) (cs : List Char) :
    digitsToNat (List.replicate k '0' ++ cs) = digitsToNat cs := by
  induction k with
  | zero => simp
  | succ k ih => rw [List.replicate_succ, List.cons_append, digitsToNat_zero_cons, ih]

lemma digitsToNat_rev_digits (ds : List ℕ) (h : ∀ d ∈ ds, d < 10) :
    digitsToNat (ds.reverse.map Nat.digitChar) = Nat.ofDigits 10 ds := by
  induction ds with
  | nil => simp [digitsToNat]
  | cons d ds ih =>
    rw [List.reverse_cons, List.map_append]
    simp only [List.map_cons, List.map_nil]
    rw [digitsToNat_concat, ih (fun x hx => h x (List.mem_cons_of_mem _ hx))]
    rw [digitChar_toNat_sub (h d (List.mem_cons_self _ _))]
    rw [Nat.ofDigits_cons]
    ring

lemma digitsToNat_natDigitsChars (n : ℕ) :
    digitsToNat (natDigitsChars n) = n := by
  rw [natDigitsChars,
    digitsToNat_rev_digits _ (fun d hd => Nat.digits_lt_base (by norm_num) hd),
    Nat.ofDigits_digits]

lemma natDigitsChars_isDigit (n : ℕ) :
    ∀ c ∈ natDigitsChars n, c.isDigit = true := by
  intro c hc
  rw [natDigitsChars] at hc
  obtain ⟨d, hd, rfl⟩ := List.mem_map.mp hc
  exact digitChar_isDigit (Nat.digits_lt_base (by norm_num) (List.mem_reverse.mp hd))

lemma natDigitsChars_len_le {n w : ℕ} (h : n < 10 ^ w) :
    (natDigitsChars n).length ≤ w := by
  rw [natDigitsChars, List.length_map, List.length_reverse]
  rcases eq_or_ne n 0 with rfl | hn
  · simp
  · rw [Nat.digits_len 10 n (by norm_num) hn]
    have := Nat.log_lt_of_lt_pow hn h
    omega

lemma renderNatPad_length {w n : ℕ} (h : n < 10 ^ w) :
    (renderNatPad w n).length = w := by
  rw [renderNatPad, List.length_append, List.length_replicate]
  have := natDigitsChars_len_le h
  omega

lemma renderNatPad_val (w n : ℕ) : digitsToNat (renderNatPad w n) = n := by
  rw [renderNatPad, digitsToNat_replicate_zero, digitsToNat_natDigitsChars]

lemma renderNatPad_isDigit (w n : ℕ) :
    ∀ c ∈ renderNatPad w n, c.isDigit = true := by
  intro c hc
  rw [renderNatPad, List.mem_append] at hc
  rcases hc with hc | hc
  · rw [List.eq_of_mem_replicate hc]
    decide
  · exact natDigitsChars_isDigit n c hc

lemma renderNat_val (n : ℕ) : digitsToNat (renderNat n) = n := by
  rw [renderNat]
  rcases eq_or_ne n 0 with rfl | h
  · decide
  · rw [if_neg h, digitsToNat_natDigitsChars]

lemma renderNat_ne_nil (n : ℕ) : renderNat n ≠ [] := by
  rw [renderNat]
  split
  · simp
  · simp [natDigitsChars, Nat.digits_ne_nil_iff_ne_zero, *]

lemma renderNat_isDigit (n : ℕ) : ∀ c ∈ renderNat n, c.isDigit = true := by
  intro c hc
  rw [renderNat] at hc
  split at hc
  · rw [List.mem_singleton] at hc
    subst hc
    decide
  · exact natDigitsChars_isDigit n c hc

/-! ### Timestamp round trip -/

lemma renderNatPad_two (n : ℕ) (h : n < 100) :
    ∃ a b, renderNatPad 2 n = [a, b] ∧ a.isDigit = true ∧ b.isDigit = true ∧
      digitsToNat [a, b] = n := by
  have hlen : (renderNatPad 2 n).length = 2 := renderNatPad_length (by omega)
  obtain ⟨a, b, hab⟩ := List.length_eq_two.mp hlen
  refine ⟨a, b, hab, ?_, ?_, ?_⟩
  · exact renderNatPad_isDigit 2 n a (by rw [hab]; simp)
  · exact renderNatPad_isDigit 2 n b (by rw [hab]; simp)
  · rw [← hab, renderNatPad_val]

lemma length_eq_four {l : List Char} (h : l.length = 4) :
    ∃ a b c d, l = [a, b, c, d] := by
  rcases l with _ | ⟨a, _ | ⟨b, _ | ⟨c, _ | ⟨d, _ | e⟩⟩⟩⟩ <;> simp at h
  exact ⟨a, b, c, d, rfl⟩

lemma renderNatPad_four (n : ℕ) (h : n < 10000) :
    ∃ a b c d, renderNatPad 4 n = [a, b, c, d] ∧ a.isDigit = true ∧
      b.isDigit = true ∧ c.isDigit = true ∧ d.isDigit = true ∧
      digitsToNat [a, b, c, d] = n := by
  have hlen : (renderNatPad 4 n).length = 4 := renderNatPad_length (by omega)
  obtain ⟨a, b, c, d, habcd⟩ := length_eq_four hlen
  refine ⟨a, b, c, d, habcd, ?_, ?_, ?_, ?_, ?_⟩
  · exact renderNatPad_isDigit 4 n a (by rw [habcd]; simp)
  · exact renderNatPad_isDigit 4 n b (by rw [habcd]; simp)
  · exact renderNatPad_isDigit 4 n c (by rw [habcd]; simp)
  · exact renderNatPad_isDigit 4 n d (by rw [habcd]; simp)
  · rw [← habcd, renderNatPad_val]

lemma daysInMonth_le (y m : ℕ) : daysInMonth y m ≤ 31 := by
  rw [daysInMonth]
  split_ifs <;> omega

lemma validDateTime_bounds {t : DateTime} (hv : validDateTime t = true) :
    1 ≤ t.year ∧ t.year ≤ 9999 ∧ 1 ≤ t.month ∧ t.month ≤ 12 ∧
    1 ≤ t.day ∧ t.day ≤ 31 ∧ t.hour ≤ 23 ∧ t.minute ≤ 59 ∧ t.second ≤ 59 := by
  rw [validDateTime] at hv
  simp only [Bool.and_eq_true, decide_eq_true_eq] at hv
  have := daysInMonth_le t.year t.month
  omega

theorem parse_format_timestamp (t : DateTime) (hv : validDateTime t = true) :
    parseTimestamp (formatTimestamp t) = some t := by
  obtain ⟨hy1, hy2, hm1, hm2, hd1, hd2, hh, hn, hs⟩ := validDateTime_bounds hv
  obtain ⟨d1, d2, hdeq, hdd1, hdd2, hdv⟩ := renderNatPad_two t.day (by omega)
  obtain ⟨m1, m2, hmeq, hmd1, hmd2, hmv⟩ := renderNatPad_two t.month (by omega)
  obtain ⟨y1, y2, y3, y4, hyeq, hyd1, hyd2, hyd3, hyd4, hyv⟩ :=
    renderNatPad_four t.year (by omega)
  obtain ⟨h1, h2, hheq, hhd1, hhd2, hhv⟩ := renderNatPad_two t.hour (by omega)
  obtain ⟨n1, n2, hneq, hnd1, hnd2, hnv⟩ := renderNatPad_two t.minute (by omega)
  obtain ⟨p1, p2, hpeq, hpd1, hpd2, hpv⟩ := renderNatPad_two t.second (by omega)
  rw [formatTimestamp, hdeq, hmeq, hyeq, hheq, hneq, hpeq]
  rw [parseTimestamp, toList_mk]
  simp only [List.cons_append, List.nil_append]
  rw [if_pos]
  · have ht : (⟨digitsToNat [y1, y2, y3, y4], digitsToNat [m1, m2],
        digitsToNat [d1, d2], digitsToNat [h1, h2], digitsToNat [n1, n2],
        digitsToNat [p1, p2]⟩ : DateTime) = t := by
      rw [hyv, hmv, hdv, hhv, hnv, hpv]
    rw [ht, hv]
    simp
  · simp [hdd1, hdd2, hmd1, hmd2, hyd1, hyd2, hyd3, hyd4, hhd1, hhd2,
      hnd1, hnd2, hpd1, hpd2]

lemma parseTimestamp_valid {s : String} {t : DateTime}
    (h : parseTimestamp s = some t) : validDateTime t = true := by
  rw [parseTimestamp] at h
  split at h
  · split at h
    · split at h
      · rename_i hval
        cases h
        exact hval
      · exact absurd h (by simp)
    · exact absurd h (by simp)
  · exact absurd h (by simp)

/-! ### Value round trip -/

lemma span_digits (xs ys : List Char) (hxs : ∀ c ∈ xs, c.isDigit = true) :
    (xs ++ '.' :: ys).takeWhile Char.isDigit = xs ∧
    (xs ++ '.' :: ys).dropWhile Char.isDigit = '.' :: ys := by
  induction xs with
  | nil =>
    constructor
    · simp [List.takeWhile_cons]
    · simp [List.dropWhile_cons]
  | cons x xs ih =>
    have hx : x.isDigit = true := hxs x (List.mem_cons_self _ _)
    have ihh := ih (fun c hc => hxs c (List.mem_cons_of_mem _ hc))
    constructor
    · simp [List.takeWhile_cons, hx, ihh.1]
    · simp [List.dropWhile_cons, hx, ihh.2]

lemma nat_decimal_shape (a : ℕ) : ∃ n k : ℕ, (a : ℚ) = (n : ℚ) / 10 ^ k :=
  ⟨a, 0, by norm_num⟩

lemma frac_decimal_shape (a b l : ℕ) :
    ∃ n k : ℕ, (a : ℚ) + (b : ℚ) / 10 ^ l = (n : ℚ) / 10 ^ k := by
  refine ⟨a * 10 ^ l + b, l, ?_⟩
  push_cast
  rw [add_div]
  congr 1
  rw [mul_div_assoc, div_self (by positivity), mul_one]

lemma parseValue_shape {s : String} {q : ℚ} (h : parseValue s = some q) :
    0 ≤ q ∧ ∃ n k : ℕ, q = (n : ℚ) / 10 ^ k := by
  rw [parseValue, parseDecimal] at h
  split at h
  · split at h
    · exact absurd h (by simp)
    · rw [Option.some_inj] at h
      subst h
      exact ⟨by positivity, nat_decimal_shape _⟩
  · split at h
    · rw [Option.some_inj] at h
      subst h
      exact ⟨by positivity, frac_decimal_shape _ _ _⟩
    · exact absurd h (by simp)

lemma den_dvd_pow {q : ℚ} {n k : ℕ} (h : q = (n : ℚ) / 10 ^ k) :
    q.den ∣ 10 ^ k := by
  have h2 : q = ((n : ℤ) : ℚ) / (((10 ^ k : ℕ) : ℤ) : ℚ) := by
    push_cast
    exact h
  rw [← Rat.divInt_eq_div] at h2
  have hd := Rat.den_dvd (n : ℤ) ((10 ^ k : ℕ) : ℤ)
  rw [← h2] at hd
  exact_mod_cast hd

lemma dvd_ten_pow_small (d : ℕ) (hd : 0 < d) :
    ∀ k, d ∣ 10 ^ k → ∃ j, j ≤ d ∧ d ∣ 10 ^ j := by
  induction d using Nat.strong_induction_on with
  | _ d ih =>
    intro k hk
    rcases eq_or_ne d 1 with rfl | hne
    · exact ⟨0, by omega, by simp⟩
    · have hp : d.minFac.Prime := Nat.minFac_prime hne
      have hpd : d.minFac ∣ d := Nat.minFac_dvd d
      have hp10 : d.minFac ∣ 10 :=
        hp.dvd_of_dvd_pow (dvd_trans hpd hk)
      have hp2 : 2 ≤ d.minFac := hp.two_le
      have hdq : d / d.minFac ∣ d := ⟨d.minFac, (Nat.div_mul_cancel hpd).symm⟩
      have hlt : d / d.minFac < d := Nat.div_lt_self hd (by omega)
      have hpos : 0 < d / d.minFac :=
        Nat.div_pos (Nat.minFac_le hd) (by omega)
      obtain ⟨j, hjle, hjdvd⟩ := ih (d / d.minFac) hlt hpos k (dvd_trans hdq hk)
      have hge : d.minFac * (d / d.minFac) = d := Nat.mul_div_cancel' hpd
      refine ⟨j + 1, ?_, ?_⟩
      · have h2d : 2 * (d / d.minFac) ≤ d := by
          calc 2 * (d / d.minFac) ≤ d.minFac * (d / d.minFac) :=
                Nat.mul_le_mul_right _ hp2
          _ = d := hge
        omega
      · rw [← hge, pow_succ, mul_comm (10 ^ j) 10]
        exact mul_dvd_mul hp10 hjdvd

lemma cast_div_add_mod (a b : ℕ) (hb : ((b : ℕ) : ℚ) ≠ 0) :
    ((a / b : ℕ) : ℚ) + ((a % b : ℕ) : ℚ) / ((b : ℕ) : ℚ) =
      ((a : ℕ) : ℚ) / ((b : ℕ) : ℚ) := by
  have hnat : a / b * b + a % b = a := Nat.div_add_mod' a b
  calc ((a / b : ℕ) : ℚ) + ((a % b : ℕ) : ℚ) / ((b : ℕ) : ℚ)
      = (((a / b : ℕ) : ℚ) * ((b : ℕ) : ℚ) + ((a % b : ℕ) : ℚ)) / ((b : ℕ) : ℚ) := by
        rw [add_div, mul_div_assoc, div_self hb, mul_one]
  _ = ((a / b * b + a % b : ℕ) : ℚ) / ((b : ℕ) : ℚ) := by push_cast; ring
  _ = ((a : ℕ) : ℚ) / ((b : ℕ) : ℚ) := by rw [hnat]

lemma parseDecimal_digits (ip fp : List Char) (hip : ∀ c ∈ ip, c.isDigit = true)
    (hfp : ∀ c ∈ fp, c.isDigit = true) (hne : ip ≠ []) :
    parseDecimal (ip ++ '.' :: fp) =
      some ((digitsToNat ip : ℚ) + (digitsToNat fp : ℚ) / 10 ^ fp.length) := by
  obtain ⟨h1, h2⟩ := span_digits ip fp hip
  rw [parseDecimal]
  simp only [h1, h2]
  rw [if_pos]
  exact ⟨by trivial, List.all_eq_true.mpr hfp, Or.inl hne⟩

lemma map_comma_digits (xs : List Char) (h : ∀ c ∈ xs, c.isDigit = true) :
    xs.map (fun c => if c = ',' then '.' else c) = xs := by
  have hid : ∀ c ∈ xs, (if c = ',' then '.' else c) = c := by
    intro c hc
    rw [if_neg]
    rintro rfl
    exact absurd (h _ hc) (by decide)
  calc xs.map (fun c => if c = ',' then '.' else c) = xs.map id :=
        List.map_congr_left hid
  _ = xs := List.map_id xs

set_option maxHeartbeats 1000000 in
lemma parse_renderValue {q : ℚ} (h0 : 0 ≤ q) {m : ℕ} (hden : q.den ∣ 10 ^ m) :
    parseValue (renderValue q) = some q := by
  obtain ⟨j, hjle, hjdvd⟩ :=
    dvd_ten_pow_small q.den (Nat.pos_of_ne_zero q.den_ne_zero) m hden
  have hsome : ((List.range (q.den + 1)).find?
      (fun k => decide (10 ^ k % q.den = 0))).isSome := by
    rw [List.find?_isSome]
    refine ⟨j, List.mem_range.mpr (by omega), ?_⟩
    simp [Nat.mod_eq_zero_of_dvd hjdvd]
  obtain ⟨k₀, hk₀⟩ := Option.isSome_iff_exists.mp hsome
  have hpred := List.find?_some hk₀
  have hk₀dvd : q.den ∣ 10 ^ k₀ := by
    simp only [decide_eq_true_eq] at hpred
    exact Nat.dvd_of_mod_eq_zero hpred
  have hfc : fracDigitsCount q = k₀ := by
    rw [fracDigitsCount, hk₀]
    rfl
  have hKdvd : q.den ∣ 10 ^ max (fracDigitsCount q) 1 :=
    dvd_trans hk₀dvd (pow_dvd_pow 10 (by rw [hfc]; exact le_max_left _ _))
  have hden0 : ((q.den : ℚ)) ≠ 0 := Nat.cast_ne_zero.mpr q.den_ne_zero
  have hcast : ((10 ^ max (fracDigitsCount q) 1 / q.den : ℕ) : ℚ) =
      (10 ^ max (fracDigitsCount q) 1 : ℚ) / (q.den : ℚ) := by
    rw [Nat.cast_div hKdvd hden0]
    push_cast
    rfl
  have hnum : ((q.num.toNat : ℕ) : ℚ) = ((q.num : ℤ) : ℚ) := by
    exact_mod_cast Int.toNat_of_nonneg (Rat.num_nonneg.mpr h0)
  have hq : ((q.num.toNat * (10 ^ max (fracDigitsCount q) 1 / q.den) : ℕ) : ℚ) /
      10 ^ max (fracDigitsCount q) 1 = q := by
    calc ((q.num.toNat * (10 ^ max (fracDigitsCount q) 1 / q.den) : ℕ) : ℚ) /
        10 ^ max (fracDigitsCount q) 1
        = ((q.num.toNat : ℕ) : ℚ) *
            ((10 ^ max (fracDigitsCount q) 1 / q.den : ℕ) : ℚ) /
            10 ^ max (fracDigitsCount q) 1 := by push_cast; ring
    _ = ((q.num : ℤ) : ℚ) * ((10 ^ max (fracDigitsCount q) 1 : ℚ) / (q.den : ℚ)) /
            10 ^ max (fracDigitsCount q) 1 := by rw [hnum, hcast]
    _ = ((q.num : ℤ) : ℚ) / (q.den : ℚ) := by
          field_simp
          ring
    _ = q := Rat.num_div_den q
  rw [renderValue, parseValue, toList_mk]
  rw [List.map_append, List.map_cons,
    map_comma_digits _ (renderNat_isDigit _),
    map_comma_digits _ (renderNatPad_isDigit _ _)]
  have hcomma : (if ',' = ',' then '.' else ',') = '.' := rfl
  rw [hcomma]
  rw [parseDecimal_digits _ _ (renderNat_isDigit _) (renderNatPad_isDigit _ _)
    (renderNat_ne_nil _)]
  rw [renderNat_val, renderNatPad_val,
    renderNatPad_length (Nat.mod_lt _ (pow_pos (by norm_num) _))]
  rw [Option.some_inj]
  have hsplit : ((q.num.toNat * (10 ^ max (fracDigitsCount q) 1 / q.den) /
        10 ^ max (fracDigitsCount q) 1 : ℕ) : ℚ) +
      ((q.num.toNat * (10 ^ max (fracDigitsCount q) 1 / q.den) %
        10 ^ max (fracDigitsCount q) 1 : ℕ) : ℚ) /
        (10 : ℚ) ^ max (fracDigitsCount q) 1 =
      ((q.num.toNat * (10 ^ max (fracDigitsCount q) 1 / q.den) : ℕ) : ℚ) /
        (10 : ℚ) ^ max (fracDigitsCount q) 1 := by
    have hb : ((10 ^ max (fracDigitsCount q) 1 : ℕ) : ℚ) =
        (10 : ℚ) ^ max (fracDigitsCount q) 1 := by
      push_cast
      rfl
    rw [← hb]
    exact cast_div_add_mod _ _ (by positivity)
  rw [hsplit]
  exact hq

lemma parseRow_ok {row : RawRow} {R : ParsedReading}
    (h : parseRow row = Except.ok R) :
    parseValue row.valeur = some R.consumption_kwh ∧
    parseTimestamp row.debut = some R.start_time ∧
    parseTimestamp row.fin = some R.end_time := by
  cases hv : parseValue row.valeur with
  | none =>
    rw [parseRow, hv] at h
    simp at h
  | some v =>
    rw [parseRow, hv] at h
    cases hst : parseTimestamp row.debut with
    | none =>
      rw [hst] at h
      simp at h
    | some st =>
      rw [hst] at h
      cases hen : parseTimestamp row.fin with
      | none =>
        rw [hen] at h
        simp at h
      | some en =>
        rw [hen] at h
        simp only [Except.ok.injEq] at h
        subst h
        exact ⟨rfl, rfl, rfl⟩

/-- C9 counterexample: the valid row with value `"5,50"` parses to the
reading with consumption `5.5`, but the canonical formatter prints that
reading back with value `"5,5"`, so formatting the parsed reading does not
reproduce the original row character for character. -/
theorem format_parse_not_string_inverse :
    parseRow ⟨"01/01/2024 00:00:00", "01/01/2024 00:30:00", "5,50"⟩ =
      Except.ok ⟨⟨2024, 1, 1, 0, 0, 0⟩, ⟨2024, 1, 1, 0, 30, 0⟩, 11 / 2⟩ ∧
    (formatReading ⟨⟨2024, 1, 1, 0, 0, 0⟩, ⟨2024, 1, 1, 0, 30, 0⟩,
      11 / 2⟩).valeur = "5,5" ∧
    formatReading ⟨⟨2024, 1, 1, 0, 0, 0⟩, ⟨2024, 1, 1, 0, 30, 0⟩, 11 / 2⟩ ≠
      ⟨"01/01/2024 00:00:00", "01/01/2024 00:30:00", "5,50"⟩ := by
  have hden : (11 / 2 : ℚ).den = 2 := by norm_num
  have hnum : (11 / 2 : ℚ).num = 11 := by norm_num
  have hfc : fracDigitsCount (11 / 2 : ℚ) = 1 := by
    rw [fracDigitsCount, hden]
    rfl
  have hval : renderValue (11 / 2 : ℚ) = "5,5" := by
    rw [renderValue, hfc, hnum, hden]
    have h1 : Int.toNat 11 * (10 ^ max 1 1 / 2) / 10 ^ max 1 1 = 5 := by decide
    have h2 : Int.toNat 11 * (10 ^ max 1 1 / 2) % 10 ^ max 1 1 = 5 := by decide
    have h3 : Nat.digits 10 5 = [5] := by norm_num
    simp only [h1, h2, renderNat, renderNatPad, natDigitsChars, h3]
    decide
  refine ⟨?_, ?_, ?_⟩
  · simp +decide [parseRow, parseValue, parseDecimal, parseTimestamp,
      digitsToNat, validDateTime, daysInMonth, isLeapYear]
    norm_num
  · rw [formatReading]
    exact hval
  · intro hcontra
    have : (formatReading ⟨⟨2024, 1, 1, 0, 0, 0⟩, ⟨2024, 1, 1, 0, 30, 0⟩,
        11 / 2⟩).valeur = "5,50" := by rw [hcontra]
    rw [formatReading] at this
    rw [hval] at this
    exact absurd this (by decide)

/-- C9 (amended): formatting loses no information — for every row the parser
accepts, re-parsing the canonically formatted reading yields the same
reading back (`parse ∘ format ∘ parse = parse`); the formatted row need not
equal the original strings character for character. -/
theorem parse_format_parse (row : RawRow) (R : ParsedReading)
    (h : parseRow row = Except.ok R) :
    parseRow (formatReading R) = Except.ok R := by
  obtain ⟨hv, hst, hen⟩ := parseRow_ok h
  obtain ⟨h0, n, k, hshape⟩ := parseValue_shape hv
  have hdvd := den_dvd_pow hshape
  have hv2 : parseValue (renderValue R.consumption_kwh) =
      some R.consumption_kwh := parse_renderValue h0 hdvd
  have hst2 := parse_format_timestamp R.start_time (parseTimestamp_valid hst)
  have hen2 := parse_format_timestamp R.end_time (parseTimestamp_valid hen)
  rw [formatReading, parseRow]
  simp [hv2, hst2, hen2]

/-- Witness for C9 (amended) at a concrete canonical row. -/
theorem parse_format_parse_witness :
    parseRow (formatReading ⟨⟨2024, 6, 5, 12, 30, 0⟩, ⟨2024, 6, 5, 13, 0, 0⟩,
      11 / 2⟩) = Except.ok ⟨⟨2024, 6, 5, 12, 30, 0⟩, ⟨2024, 6, 5, 13, 0, 0⟩,
      11 / 2⟩ :=
  parse_format_parse ⟨"05/06/2024 12:30:00", "05/06/2024 13:00:00", "5,5"⟩ _
    (by
      simp +decide [parseRow, parseValue, parseDecimal, parseTimestamp,
        digitsToNat, validDateTime, daysInMonth, isLeapYear]
      norm_num)

end ConsoElec
